import Mathlib

/-!
Shallow embedding of the news-backend Express server (src/server.js).

The database is modelled as in-memory lists of `User` and `Content` rows;
each route handler is a pure function from the incoming request data and
the database state to a `RouteResult` (HTTP status plus payload or error
message) and the successor state.  bcrypt hashing and comparison are
abstract function parameters, and a verified JWT is modelled by the
`Claims` record it decodes to (the code trusts decoded claims as-is).
-/

namespace NewsBackend

/-- `role: ENUM('publisher', 'user')` of the User model. -/
inductive Role where
  | publisher
  | user
deriving DecidableEq, Repr

/-- `type: ENUM('newspaper', 'journal', 'article', 'video_script')` of the Content model. -/
inductive CType where
  | newspaper
  | journal
  | article
  | video_script
deriving DecidableEq, Repr

/-- `status: ENUM('draft', 'published', 'archived')` of the Content model. -/
inductive CStatus where
  | draft
  | published
  | archived
deriving DecidableEq, Repr

/-- A row of the `users` table (sequelize model `User`). -/
structure User where
  id : Nat
  username : String
  email : String
  password : String
  role : Role
  profile : String
deriving DecidableEq, Repr

/-- A row of the `contents` table (sequelize model `Content`).  `createdAt`
is the auto-maintained creation timestamp used by `ORDER BY createdAt DESC`. -/
structure Content where
  id : Nat
  title : String
  content : String
  ctype : CType
  category : Option String
  tags : List String
  status : CStatus
  featuredImage : Option String
  videoUrl : Option String
  readTime : Option Nat
  views : Nat
  publisherId : Nat
  createdAt : Nat
deriving DecidableEq, Repr

/-- Database state: the two tables plus the auto-increment counters. -/
structure DB where
  users : List User
  contents : List Content
  nextUserId : Nat
  nextContentId : Nat
deriving DecidableEq, Repr

/-- The claims a verified JWT decodes to (`jwt.sign({id, username, role}, ...)`). -/
structure Claims where
  id : Nat
  username : String
  role : Role
deriving DecidableEq, Repr

/-- The authorization header of a request, as the code distinguishes it:
no bearer token at all, a token `jwt.verify` rejects, or a token that
verifies to some claims. -/
inductive AuthHeader where
  | missing
  | invalid
  | valid (c : Claims)
deriving DecidableEq, Repr

/-- Outcome of a route: an error response `{error: msg}` with an HTTP
status, or a success payload with an HTTP status. -/
inductive RouteResult (α : Type) where
  | err (status : Nat) (msg : String)
  | ok (status : Nat) (payload : α)
deriving DecidableEq, Repr

/-- The `authenticateToken` middleware: 401 without a token, 403 when
`jwt.verify` fails, otherwise the decoded claims are attached. -/
def authenticateToken : AuthHeader → Except (Nat × String) Claims
  | .missing => .error (401, "Access token required")
  | .invalid => .error (403, "Invalid token")
  | .valid c => .ok c

/-- The `requirePublisher` middleware: 403 unless `req.user.role === 'publisher'`. -/
def requirePublisher (c : Claims) : Except (Nat × String) Claims :=
  if c.role = Role.publisher then .ok c else .error (403, "Publisher access required")

/-- Runs a handler behind `authenticateToken, requirePublisher`, as every
`/api/publisher/...` route is wired. -/
def publisherRoute {α : Type} (handler : Claims → DB → RouteResult α × DB)
    (a : AuthHeader) (db : DB) : RouteResult α × DB :=
  match authenticateToken a with
  | .error e => (.err e.1 e.2, db)
  | .ok c =>
    match requirePublisher c with
    | .error e => (.err e.1 e.2, db)
    | .ok c2 => handler c2 db

/-- Applies `f` to the first row satisfying `p`, leaving every other row
in place: a sequelize instance `update`/`increment`, which issues a single
UPDATE keyed on the found row's primary key. -/
def updateFirst (p : Content → Bool) (f : Content → Content) : List Content → List Content
  | [] => []
  | c :: cs => if p c then f c :: cs else c :: updateFirst p f cs

/-- `GET /api/contents/:id`: find a row with this id and status published;
404 if none; otherwise increment its `views` and return the row (the
response serialises the instance as fetched, before the increment). -/
def getContentById (db : DB) (i : Nat) : RouteResult Content × DB :=
  match db.contents.find? (fun c => c.id == i && c.status == CStatus.published) with
  | none => (.err 404 "Content not found", db)
  | some c =>
    let upd := updateFirst (fun x => x.id == c.id)
      (fun x => { x with views := x.views + 1 }) db.contents
    (.ok 200 c, { db with contents := upd })

/-- The public single-item route carries no middleware, so the request's
authorization header is ignored entirely. -/
def getContentRoute (a : AuthHeader) (db : DB) (i : Nat) : RouteResult Content × DB :=
  match a with
  | _ => getContentById db i

/-- Newest-first order on contents: `ORDER BY createdAt DESC`. -/
def newerFirst (a b : Content) : Prop := b.createdAt ≤ a.createdAt

instance : DecidableRel newerFirst := fun a b => Nat.decLe b.createdAt a.createdAt

instance : IsTotal Content newerFirst := ⟨fun a b => Nat.le_total b.createdAt a.createdAt⟩

instance : IsTrans Content newerFirst := ⟨fun _ _ _ h1 h2 => Nat.le_trans h2 h1⟩

/-- The WHERE clause of `GET /api/contents`: status published, plus the
optional `type` and `category` query filters. -/
def publicFilter (qt : Option CType) (qc : Option String) (c : Content) : Bool :=
  c.status == CStatus.published
    && (match qt with | none => true | some t => c.ctype == t)
    && (match qc with | none => true | some k => c.category == some k)

/-- `GET /api/contents`: published rows matching the filters, newest first,
windowed by `limit` rows from offset `(page - 1) * limit`; `page` defaults
to 1 and `limit` to 10 when the query omits them. -/
def listContents (db : DB) (qt : Option CType) (qc : Option String)
    (page lim : Option Nat) : RouteResult (List Content) × DB :=
  let p := page.getD 1
  let l := lim.getD 10
  let ordered := List.insertionSort newerFirst (db.contents.filter (publicFilter qt qc))
  (.ok 200 ((ordered.drop ((p - 1) * l)).take l), db)

/-- `GET /api/publisher/contents` handler: all rows owned by the caller,
any status, newest first. -/
def listOwnContents (c : Claims) (db : DB) : RouteResult (List Content) × DB :=
  (.ok 200 (List.insertionSort newerFirst
    (db.contents.filter (fun x => x.publisherId == c.id))), db)

def listOwnRoute (a : AuthHeader) (db : DB) : RouteResult (List Content) × DB :=
  publisherRoute listOwnContents a db

/-- The request body of `POST /api/publisher/contents`.  The handler
destructures only title, content, type, category, tags, featuredImage,
videoUrl and readTime; `status` and `publisherId` model keys a caller may
also send in the JSON body, which the handler never reads. -/
structure CreateBody where
  title : String
  content : String
  ctype : CType
  category : Option String
  tags : Option (List String)
  featuredImage : Option String
  videoUrl : Option String
  readTime : Option Nat
  status : Option CStatus
  publisherId : Option Nat
deriving DecidableEq, Repr

/-- `POST /api/publisher/contents` handler: `Content.create` with the
destructured fields, `tags: tags || []`, `publisherId: req.user.id`; the
model defaults fill in `status: 'draft'` and `views: 0`. -/
def createContent (c : Claims) (db : DB) (b : CreateBody) (now : Nat) :
    RouteResult Content × DB :=
  let newC : Content :=
    { id := db.nextContentId
      title := b.title
      content := b.content
      ctype := b.ctype
      category := b.category
      tags := b.tags.getD []
      status := CStatus.draft
      featuredImage := b.featuredImage
      videoUrl := b.videoUrl
      readTime := b.readTime
      views := 0
      publisherId := c.id
      createdAt := now }
  (.ok 201 newC,
   { db with contents := db.contents ++ [newC], nextContentId := db.nextContentId + 1 })

def createContentRoute (a : AuthHeader) (b : CreateBody) (now : Nat) (db : DB) :
    RouteResult Content × DB :=
  publisherRoute (fun c db2 => createContent c db2 b now) a db

/-- The request body of `PUT /api/publisher/contents/:id`: `content.update(req.body)`
overwrites whichever model attributes the body carries (no whitelist). -/
structure UpdateBody where
  title : Option String
  content : Option String
  ctype : Option CType
  category : Option String
  tags : Option (List String)
  status : Option CStatus
  featuredImage : Option String
  videoUrl : Option String
  readTime : Option Nat
  views : Option Nat
  publisherId : Option Nat
deriving DecidableEq, Repr

def applyUpdate (b : UpdateBody) (c : Content) : Content :=
  { c with
    title := b.title.getD c.title
    content := b.content.getD c.content
    ctype := b.ctype.getD c.ctype
    category := (b.category.map some).getD c.category
    tags := b.tags.getD c.tags
    status := b.status.getD c.status
    featuredImage := (b.featuredImage.map some).getD c.featuredImage
    videoUrl := (b.videoUrl.map some).getD c.videoUrl
    readTime := (b.readTime.map some).getD c.readTime
    views := b.views.getD c.views
    publisherId := b.publisherId.getD c.publisherId }

/-- `PUT /api/publisher/contents/:id` handler: find the row with this id
AND `publisherId: req.user.id`; 404 if none; otherwise overwrite it from
the body and return it. -/
def updateContent (c : Claims) (db : DB) (i : Nat) (b : UpdateBody) :
    RouteResult Content × DB :=
  match db.contents.find? (fun x => x.id == i && x.publisherId == c.id) with
  | none => (.err 404 "Content not found", db)
  | some c0 =>
    (.ok 200 (applyUpdate b c0),
     { db with contents := updateFirst (fun x => x.id == c0.id) (applyUpdate b) db.contents })

def putContentRoute (a : AuthHeader) (i : Nat) (b : UpdateBody) (db : DB) :
    RouteResult Content × DB :=
  publisherRoute (fun c db2 => updateContent c db2 i b) a db

/-- `PUT /api/publisher/contents/:id/publish` handler: find the row with
this id AND `publisherId: req.user.id`; 404 if none; otherwise set
`status: 'published'`. -/
def publishContent (c : Claims) (db : DB) (i : Nat) : RouteResult Content × DB :=
  match db.contents.find? (fun x => x.id == i && x.publisherId == c.id) with
  | none => (.err 404 "Content not found", db)
  | some c0 =>
    let upd := updateFirst (fun x => x.id == c0.id)
      (fun x => { x with status := CStatus.published }) db.contents
    (.ok 200 { c0 with status := CStatus.published }, { db with contents := upd })

def publishRoute (a : AuthHeader) (i : Nat) (db : DB) : RouteResult Content × DB :=
  publisherRoute (fun c db2 => publishContent c db2 i) a db

/-- The public user fields returned by register and login. -/
structure PublicUser where
  id : Nat
  username : String
  email : String
  role : Role
deriving DecidableEq, Repr

def publicOf (u : User) : PublicUser :=
  { id := u.id, username := u.username, email := u.email, role := u.role }

/-- `jwt.sign({ id, username, role }, ...)`: the token carries exactly
these claims. -/
structure Token where
  id : Nat
  username : String
  role : Role
deriving DecidableEq, Repr

def signToken (u : User) : Token :=
  { id := u.id, username := u.username, role := u.role }

/-- Successful auth response body: `{ token, user }`. -/
structure AuthSuccess where
  token : Token
  user : PublicUser
deriving DecidableEq, Repr

/-- The body of `POST /api/register`; `role = 'user'` is the destructuring
default when the key is absent. -/
structure RegisterBody where
  username : String
  email : String
  password : String
  role : Option Role
deriving DecidableEq, Repr

/-- `POST /api/register`: 400 `User already exists` when a row with this
email exists; else store the bcrypt hash of the password, create the user
and answer 201 with a token and the public fields.  `hash` abstracts
`bcrypt.hash(plaintext, 10)`. -/
def register (hash : String → String) (db : DB) (b : RegisterBody) :
    RouteResult AuthSuccess × DB :=
  match db.users.find? (fun u => u.email == b.email) with
  | some _ => (.err 400 "User already exists", db)
  | none =>
    let u : User :=
      { id := db.nextUserId
        username := b.username
        email := b.email
        password := hash b.password
        role := b.role.getD Role.user
        profile := "" }
    (.ok 201 { token := signToken u, user := publicOf u },
     { db with users := db.users ++ [u], nextUserId := db.nextUserId + 1 })

/-- `POST /api/login`: the same `Invalid credentials` 400 whether the email
is unknown or the bcrypt comparison fails; on success a token signed from
the stored row plus the public fields.  `compare` abstracts
`bcrypt.compare(plaintext, digest)`. -/
def login (compare : String → String → Bool) (db : DB) (email pw : String) :
    RouteResult AuthSuccess × DB :=
  match db.users.find? (fun u => u.email == email) with
  | none => (.err 400 "Invalid credentials", db)
  | some u =>
    if compare pw u.password then
      (.ok 200 { token := signToken u, user := publicOf u }, db)
    else
      (.err 400 "Invalid credentials", db)

/-- The bootstrap seeding step of `syncDatabase`: when no publisher-role
row exists, create `admin` / `admin@news.com` with the bcrypt hash of
`publisher123`. -/
def seedDefaultPublisher (hash : String → String) (db : DB) : DB :=
  match db.users.find? (fun u => u.role == Role.publisher) with
  | some _ => db
  | none =>
    let u : User :=
      { id := db.nextUserId
        username := "admin"
        email := "admin@news.com"
        password := hash "publisher123"
        role := Role.publisher
        profile := "" }
    { db with users := db.users ++ [u], nextUserId := db.nextUserId + 1 }

/-- The shape `GET /api/profile` serialises: the User row with the
`password` attribute excluded. -/
structure ProfileView where
  id : Nat
  username : String
  email : String
  role : Role
  profile : String
deriving DecidableEq, Repr

def profileOf (u : User) : ProfileView :=
  { id := u.id, username := u.username, email := u.email, role := u.role, profile := u.profile }

/-- `GET /api/profile`: behind `authenticateToken` only; `findByPk` of the
claims id with the password attribute excluded (null payload when the row
is gone). -/
def getProfile (a : AuthHeader) (db : DB) : RouteResult (Option ProfileView) × DB :=
  match authenticateToken a with
  | .error e => (.err e.1 e.2, db)
  | .ok c => (.ok 200 ((db.users.find? (fun u => u.id == c.id)).map profileOf), db)

/-- The stored view counter of the row with primary key `i`. -/
def viewsOf (db : DB) (i : Nat) : Option Nat :=
  (db.contents.find? (fun c => c.id == i)).map Content.views

/-- `n` successive `GET /api/contents/:id` requests for the same id,
tracking only the evolving database state. -/
def fetchN (i : Nat) : Nat → DB → DB
  | 0, db => db
  | n + 1, db => fetchN i n (getContentById db i).2

/-! Concrete fixtures used to instantiate the theorems. -/

def pubClaims : Claims := { id := 1, username := "admin", role := Role.publisher }

def userClaims : Claims := { id := 2, username := "bob", role := Role.user }

def cDraft : Content :=
  { id := 1, title := "t", content := "body", ctype := CType.article, category := none,
    tags := [], status := CStatus.draft, featuredImage := none, videoUrl := none,
    readTime := none, views := 0, publisherId := 1, createdAt := 0 }

def cPub : Content := { cDraft with id := 2, status := CStatus.published, createdAt := 1 }

def cOther : Content := { cDraft with id := 3, publisherId := 9 }

def uAdmin : User :=
  { id := 1, username := "admin", email := "admin@news.com",
    password := "hpublisher123", role := Role.publisher, profile := "" }

def dbW : DB :=
  { users := [uAdmin], contents := [cDraft, cPub, cOther], nextUserId := 2, nextContentId := 4 }

def emptyUpdate : UpdateBody :=
  { title := none, content := none, ctype := none, category := none, tags := none,
    status := none, featuredImage := none, videoUrl := none, readTime := none,
    views := none, publisherId := none }

def sampleCreate : CreateBody :=
  { title := "n", content := "c", ctype := CType.article, category := none, tags := none,
    featuredImage := none, videoUrl := none, readTime := none,
    status := some CStatus.published, publisherId := some 9 }

def regBody : RegisterBody :=
  { username := "admin2", email := "admin@news.com", password := "pw", role := none }

def regBody2 : RegisterBody :=
  { username := "alice", email := "alice@x.com", password := "pw2", role := none }

def hashW : String → String := fun s => "h" ++ s

/-! ### Helper lemmas -/

theorem zip_self_eq (l : List Content) : ∀ pr ∈ List.zip l l, pr.1 = pr.2 := by
  induction l with
  | nil => intro pr hpr; simp at hpr
  | cons a t ih =>
    intro pr hpr
    rw [List.zip_cons_cons] at hpr
    rcases List.mem_cons.mp hpr with h | h
    · rw [h]
    · exact ih pr h

theorem zip_updateFirst (p : Content → Bool) (f : Content → Content) (l : List Content) :
    ∀ pr ∈ List.zip l (updateFirst p f l), pr.1 ≠ pr.2 → p pr.1 = true := by
  induction l with
  | nil => intro pr hpr; simp [updateFirst] at hpr
  | cons c cs ih =>
    intro pr hpr hne
    by_cases hc : p c = true
    · rw [updateFirst, if_pos hc, List.zip_cons_cons] at hpr
      rcases List.mem_cons.mp hpr with h | h
      · rw [h]; exact hc
      · exact absurd (zip_self_eq cs pr h) hne
    · rw [updateFirst, if_neg hc, List.zip_cons_cons] at hpr
      rcases List.mem_cons.mp hpr with h | h
      · exact absurd (by rw [h]) hne
      · exact ih pr h hne

theorem find?_append_cons (p : Content → Bool) (l2 : List Content) (x : Content)
    (hx : p x = true) :
    ∀ l1 : List Content, (∀ y ∈ l1, p y = false) → (l1 ++ x :: l2).find? p = some x := by
  intro l1
  induction l1 with
  | nil => intro _; simpa using List.find?_cons_of_pos l2 hx
  | cons a t ih =>
    intro h1
    have ha : ¬ p a = true := by simp [h1 a (List.mem_cons_self a t)]
    rw [List.cons_append, List.find?_cons_of_neg _ ha]
    exact ih fun y hy => h1 y (List.mem_cons_of_mem a hy)

theorem updateFirst_append_cons (p : Content → Bool) (f : Content → Content)
    (l2 : List Content) (x : Content) (hx : p x = true) :
    ∀ l1 : List Content, (∀ y ∈ l1, p y = false) →
      updateFirst p f (l1 ++ x :: l2) = l1 ++ f x :: l2 := by
  intro l1
  induction l1 with
  | nil => intro _; simp [updateFirst, hx]
  | cons a t ih =>
    intro h1
    have ha : p a = false := h1 a (List.mem_cons_self a t)
    simp only [List.cons_append, updateFirst, ha]
    rw [if_neg (by simp), List.append_eq, ih fun y hy => h1 y (List.mem_cons_of_mem a hy)]

theorem exists_decomp_of_nodup {l : List Content} {x : Content}
    (hnodup : (l.map Content.id).Nodup) (hx : x ∈ l) :
    ∃ l1 l2, l = l1 ++ x :: l2 ∧ ∀ y ∈ l1, y.id ≠ x.id := by
  obtain ⟨l1, l2, rfl⟩ := List.append_of_mem hx
  refine ⟨l1, l2, rfl, ?_⟩
  intro y hy hid
  rw [List.map_append, List.map_cons] at hnodup
  have hdisj := List.disjoint_of_nodup_append hnodup
  exact hdisj (hid ▸ List.mem_map_of_mem Content.id hy) (List.mem_cons_self _ _)

theorem getContentById_none (db : DB) (i : Nat)
    (h : ∀ y ∈ db.contents, y.id = i → y.status ≠ CStatus.published) :
    getContentById db i = (.err 404 "Content not found", db) := by
  have hfind : db.contents.find? (fun y => y.id == i && y.status == CStatus.published)
      = none := by
    rw [List.find?_eq_none]
    intro y hy
    simp only [Bool.and_eq_true, beq_iff_eq, not_and]
    exact h y hy
  simp [getContentById, hfind]

theorem getContentById_eq (db : DB) (i : Nat) (l1 l2 : List Content) (x : Content)
    (hdecomp : db.contents = l1 ++ x :: l2) (hid : x.id = i)
    (hst : x.status = CStatus.published) (h1 : ∀ y ∈ l1, y.id ≠ x.id) :
    getContentById db i =
      (.ok 200 x, { db with contents := l1 ++ { x with views := x.views + 1 } :: l2 }) := by
  have hpx : (x.id == i && x.status == CStatus.published) = true := by simp [hid, hst]
  have h1f : ∀ y ∈ l1, (y.id == i && y.status == CStatus.published) = false := by
    intro y hy
    have hne : y.id ≠ i := fun h => h1 y hy (h.trans hid.symm)
    simp [hne]
  have hfind : db.contents.find? (fun y => y.id == i && y.status == CStatus.published)
      = some x := by
    rw [hdecomp]; exact find?_append_cons _ l2 x hpx l1 h1f
  have hupd : updateFirst (fun y => y.id == x.id)
      (fun y => { y with views := y.views + 1 }) db.contents
      = l1 ++ { x with views := x.views + 1 } :: l2 := by
    rw [hdecomp]
    exact updateFirst_append_cons _ _ l2 x (by simp) l1
      (fun y hy => by simp [h1 y hy])
  simp only [getContentById, hfind]
  rw [hupd]

theorem fetchN_eq (i : Nat) :
    ∀ (n : Nat) (db : DB) (l1 l2 : List Content) (x : Content),
      db.contents = l1 ++ x :: l2 → x.id = i → x.status = CStatus.published →
      (∀ y ∈ l1, y.id ≠ x.id) →
      fetchN i n db = { db with contents := l1 ++ { x with views := x.views + n } :: l2 } := by
  intro n
  induction n with
  | zero =>
    intro db l1 l2 x hdecomp hid hst h1
    have hx : ({ x with views := x.views + 0 } : Content) = x := rfl
    rw [fetchN, hx, ← hdecomp]
  | succ n ih =>
    intro db l1 l2 x hdecomp hid hst h1
    rw [fetchN, getContentById_eq db i l1 l2 x hdecomp hid hst h1]
    have hstep := ih { db with contents := l1 ++ { x with views := x.views + 1 } :: l2 }
      l1 l2 { x with views := x.views + 1 } rfl hid hst h1
    rw [hstep]
    have harith : x.views + 1 + n = x.views + (n + 1) := by omega
    simp [harith]

theorem publishContent_eq (c : Claims) (db : DB) (i : Nat) (l1 l2 : List Content)
    (x : Content) (hdecomp : db.contents = l1 ++ x :: l2) (hid : x.id = i)
    (hown : x.publisherId = c.id) (h1 : ∀ y ∈ l1, y.id ≠ x.id) :
    publishContent c db i =
      (.ok 200 { x with status := CStatus.published },
       { db with contents := l1 ++ { x with status := CStatus.published } :: l2 }) := by
  have hpx : (x.id == i && x.publisherId == c.id) = true := by simp [hid, hown]
  have h1f : ∀ y ∈ l1, (y.id == i && y.publisherId == c.id) = false := by
    intro y hy
    have hne : y.id ≠ i := fun h => h1 y hy (h.trans hid.symm)
    simp [hne]
  have hfind : db.contents.find? (fun y => y.id == i && y.publisherId == c.id)
      = some x := by
    rw [hdecomp]; exact find?_append_cons _ l2 x hpx l1 h1f
  have hupd : updateFirst (fun y => y.id == x.id)
      (fun y => { y with status := CStatus.published }) db.contents
      = l1 ++ { x with status := CStatus.published } :: l2 := by
    rw [hdecomp]
    exact updateFirst_append_cons _ _ l2 x (by simp) l1
      (fun y hy => by simp [h1 y hy])
  simp only [publishContent, hfind]
  rw [hupd]

theorem ownedMutation (c : Claims) (l : List Content)
    (hnodup : (l.map Content.id).Nodup) (i : Nat) (g : Content → Content)
    (post : List Content)
    (hpost : ∀ c0, l.find? (fun x => x.id == i && x.publisherId == c.id) = some c0 →
      post = updateFirst (fun x => x.id == c0.id) g l)
    (hnone : l.find? (fun x => x.id == i && x.publisherId == c.id) = none → post = l) :
    ∀ pr ∈ List.zip l post, pr.1 ≠ pr.2 → pr.1.publisherId = c.id := by
  intro pr hpr hne
  obtain ⟨a, b2⟩ := pr
  cases hfind : l.find? (fun x => x.id == i && x.publisherId == c.id) with
  | none =>
    rw [hnone hfind] at hpr
    exact absurd (zip_self_eq l _ hpr) hne
  | some c0 =>
    rw [hpost c0 hfind] at hpr
    have hp := zip_updateFirst _ g l _ hpr hne
    have hpc0 := List.find?_some hfind
    have hc0mem := List.mem_of_find?_eq_some hfind
    have hmem := List.of_mem_zip hpr
    simp only [Bool.and_eq_true, beq_iff_eq] at hp hpc0
    have ha : a = c0 := List.inj_on_of_nodup_map hnodup hmem.1 hc0mem hp
    rw [ha]
    exact hpc0.2

/-! ### Claim theorems -/

/-- C1: for requests to `PUT /api/publisher/contents/:id` and
`PUT /api/publisher/contents/:id/publish` with valid publisher claims, a row
is mutated only if its `publisherId` equals the caller's token id; when no
row with the requested id is owned by the caller, both routes answer 404
(never 200) and leave the database unchanged. -/
theorem owner_only_mutation (c : Claims) (db : DB) (i : Nat) (b : UpdateBody)
    (hrole : c.role = Role.publisher)
    (hnodup : (db.contents.map Content.id).Nodup) :
    ((∀ x ∈ db.contents, x.id = i → x.publisherId ≠ c.id) →
      putContentRoute (.valid c) i b db = (.err 404 "Content not found", db) ∧
      publishRoute (.valid c) i db = (.err 404 "Content not found", db)) ∧
    (∀ pr ∈ List.zip db.contents ((putContentRoute (.valid c) i b db).2.contents),
      pr.1 ≠ pr.2 → pr.1.publisherId = c.id) ∧
    (∀ pr ∈ List.zip db.contents ((publishRoute (.valid c) i db).2.contents),
      pr.1 ≠ pr.2 → pr.1.publisherId = c.id) := by
  have hput : putContentRoute (.valid c) i b db = updateContent c db i b := by
    simp [putContentRoute, publisherRoute, authenticateToken, requirePublisher, hrole]
  have hpub : publishRoute (.valid c) i db = publishContent c db i := by
    simp [publishRoute, publisherRoute, authenticateToken, requirePublisher, hrole]
  refine ⟨?_, ?_, ?_⟩
  · intro hno
    have hfind : db.contents.find? (fun x => x.id == i && x.publisherId == c.id)
        = none := by
      rw [List.find?_eq_none]
      intro x hxmem
      simp only [Bool.and_eq_true, beq_iff_eq, not_and]
      exact hno x hxmem
    constructor
    · rw [hput]; simp [updateContent, hfind]
    · rw [hpub]; simp [publishContent, hfind]
  · rw [hput]
    refine ownedMutation c db.contents hnodup i (applyUpdate b) _ ?_ ?_
    · intro c0 hfind; simp [updateContent, hfind]
    · intro hfind; simp [updateContent, hfind]
  · rw [hpub]
    refine ownedMutation c db.contents hnodup i
      (fun y => { y with status := CStatus.published }) _ ?_ ?_
    · intro c0 hfind; simp [publishContent, hfind]
    · intro hfind; simp [publishContent, hfind]

/-- C1 witness: a concrete publisher updating a row owned by someone else
gets 404 and changes nothing. -/
theorem owner_only_mutation_witness :
    putContentRoute (.valid pubClaims) 3 emptyUpdate dbW
      = (.err 404 "Content not found", dbW) :=
  ((owner_only_mutation pubClaims dbW 3 emptyUpdate (by decide) (by decide)).1
    (by decide)).1

/-- C2: `GET /api/contents/:id` answers 404 and leaves the state unchanged
whenever no row with that id has status published, whoever the requester is
(the route carries no middleware, so the authorization header is ignored). -/
theorem public_fetch_hides_unpublished (a : AuthHeader) (db : DB) (i : Nat)
    (h : ∀ y ∈ db.contents, y.id = i → y.status ≠ CStatus.published) :
    getContentRoute a db i = (.err 404 "Content not found", db) := by
  cases a <;> exact getContentById_none db i h

/-- C2 witness: the unauthenticated fetch of a draft row yields 404 even
though its owning publisher exists. -/
theorem public_fetch_hides_unpublished_witness :
    getContentRoute AuthHeader.missing dbW 1 = (.err 404 "Content not found", dbW) :=
  public_fetch_hides_unpublished AuthHeader.missing dbW 1 (by decide)

/-- C3 (amended): on every publisher-only route, a missing token yields 401
`Access token required`, a token failing verification yields 403
`Invalid token`, verified claims with a non-publisher role yield 403
`Publisher access required`, and only verified publisher claims reach the
handler. -/
theorem publisher_gate (db : DB) (i now : Nat) (b : UpdateBody) (cb : CreateBody)
    (c : Claims) :
    (listOwnRoute .missing db = (.err 401 "Access token required", db) ∧
     createContentRoute .missing cb now db = (.err 401 "Access token required", db) ∧
     putContentRoute .missing i b db = (.err 401 "Access token required", db) ∧
     publishRoute .missing i db = (.err 401 "Access token required", db)) ∧
    (listOwnRoute .invalid db = (.err 403 "Invalid token", db) ∧
     createContentRoute .invalid cb now db = (.err 403 "Invalid token", db) ∧
     putContentRoute .invalid i b db = (.err 403 "Invalid token", db) ∧
     publishRoute .invalid i db = (.err 403 "Invalid token", db)) ∧
    (c.role ≠ Role.publisher →
      listOwnRoute (.valid c) db = (.err 403 "Publisher access required", db) ∧
      createContentRoute (.valid c) cb now db
        = (.err 403 "Publisher access required", db) ∧
      putContentRoute (.valid c) i b db = (.err 403 "Publisher access required", db) ∧
      publishRoute (.valid c) i db = (.err 403 "Publisher access required", db)) ∧
    (c.role = Role.publisher →
      listOwnRoute (.valid c) db = listOwnContents c db ∧
      createContentRoute (.valid c) cb now db = createContent c db cb now ∧
      putContentRoute (.valid c) i b db = updateContent c db i b ∧
      publishRoute (.valid c) i db = publishContent c db i) := by
  refine ⟨⟨rfl, rfl, rfl, rfl⟩, ⟨rfl, rfl, rfl, rfl⟩, ?_, ?_⟩
  · intro h
    refine ⟨?_, ?_, ?_, ?_⟩ <;>
      simp [listOwnRoute, createContentRoute, putContentRoute, publishRoute,
        publisherRoute, authenticateToken, requirePublisher, h]
  · intro h
    refine ⟨?_, ?_, ?_, ?_⟩ <;>
      simp [listOwnRoute, createContentRoute, putContentRoute, publishRoute,
        publisherRoute, authenticateToken, requirePublisher, h]

/-- C3 witness: a user-role token is turned away from a publisher route
with 403. -/
theorem publisher_gate_witness :
    listOwnRoute (.valid userClaims) dbW = (.err 403 "Publisher access required", dbW) :=
  (((publisher_gate dbW 1 0 emptyUpdate sampleCreate userClaims).2.2.1) (by decide)).1

/-- C3 counterexample: on a token-less request the code answers with the
body `Access token required`, capitalised, not the claim's literal
`access token required`. -/
theorem publisher_gate_counterexample :
    (listOwnRoute AuthHeader.missing dbW).1 = RouteResult.err 401 "Access token required"
      ∧ "Access token required" ≠ "access token required" :=
  ⟨rfl, by decide⟩

/-- C4: when a published row with the requested id exists, every successful
fetch answers 200 and raises its stored `views` by exactly 1, so `n`
successive fetches raise it by exactly `n`; a 404 fetch changes nothing. -/
theorem view_counter_increments (db : DB) (i : Nat) (x : Content)
    (hnodup : (db.contents.map Content.id).Nodup)
    (hx : x ∈ db.contents) (hid : x.id = i) (hst : x.status = CStatus.published) :
    (∀ n : Nat, viewsOf (fetchN i n db) i = some (x.views + n)) ∧
    (∀ n : Nat, (getContentById (fetchN i n db) i).1
      = RouteResult.ok 200 { x with views := x.views + n }) ∧
    (∀ (db2 : DB) (j : Nat),
      (∀ y ∈ db2.contents, y.id = j → y.status ≠ CStatus.published) →
      getContentById db2 j = (.err 404 "Content not found", db2)) := by
  obtain ⟨l1, l2, hdecomp, h1⟩ := exists_decomp_of_nodup hnodup hx
  have h1f : ∀ y ∈ l1, (y.id == i) = false := by
    intro y hy
    have hne : y.id ≠ i := fun h => h1 y hy (h.trans hid.symm)
    simp [hne]
  refine ⟨?_, ?_, fun db2 j h => getContentById_none db2 j h⟩
  · intro n
    rw [fetchN_eq i n db l1 l2 x hdecomp hid hst h1]
    have hfind : (l1 ++ { x with views := x.views + n } :: l2).find?
        (fun y => y.id == i) = some { x with views := x.views + n } :=
      find?_append_cons _ l2 _ (by simp [hid]) l1 h1f
    simp [viewsOf, hfind]
  · intro n
    rw [fetchN_eq i n db l1 l2 x hdecomp hid hst h1,
      getContentById_eq _ i l1 l2 { x with views := x.views + n } rfl hid hst h1]

/-- C4 witness: three successive fetches of the published row raise its
counter from 0 to 3. -/
theorem view_counter_increments_witness :
    viewsOf (fetchN 2 3 dbW) 2 = some (cPub.views + 3) :=
  (view_counter_increments dbW 2 cPub (by decide) (by decide) (by decide)
    (by decide)).1 3

/-- C5: `POST /api/register` with an already-registered email answers 400
`User already exists` and leaves the state unchanged, whatever the other
fields are; with a fresh email it creates a user storing the hashed
password and answers 201 with a token and the public fields. -/
theorem register_email_conflict (hash : String → String) (db : DB) (b : RegisterBody) :
    ((∃ u ∈ db.users, u.email = b.email) →
      register hash db b = (.err 400 "User already exists", db)) ∧
    ((∀ u ∈ db.users, u.email ≠ b.email) →
      ∃ nu : User,
        nu.id = db.nextUserId ∧ nu.username = b.username ∧ nu.email = b.email ∧
        nu.password = hash b.password ∧ nu.role = b.role.getD Role.user ∧
        register hash db b =
          (.ok 201 { token := signToken nu, user := publicOf nu },
           { db with users := db.users ++ [nu], nextUserId := db.nextUserId + 1 })) := by
  constructor
  · rintro ⟨u, hu, he⟩
    cases hfind : db.users.find? (fun v => v.email == b.email) with
    | none =>
      rw [List.find?_eq_none] at hfind
      exact absurd (by simp [he]) (hfind u hu)
    | some u0 => simp [register, hfind]
  · intro h
    have hfind : db.users.find? (fun v => v.email == b.email) = none := by
      rw [List.find?_eq_none]
      intro u hu
      simp [h u hu]
    refine ⟨{ id := db.nextUserId, username := b.username, email := b.email,
              password := hash b.password, role := b.role.getD Role.user,
              profile := "" },
            rfl, rfl, rfl, rfl, rfl, ?_⟩
    simp [register, hfind]

/-- C5 witness: a second registration with the seeded admin email is
rejected with 400 and the store is unchanged. -/
theorem register_email_conflict_witness :
    register hashW dbW regBody = (.err 400 "User already exists", dbW) :=
  (register_email_conflict hashW dbW regBody).1 ⟨uAdmin, by decide, by decide⟩

/-- C6: `POST /api/login` answers the same 400 `Invalid credentials` body
whether the email is unknown or the stored user's password comparison
fails — the two failure runs are indistinguishable — and on success it
issues a token whose claims are exactly the stored id, username and role. -/
theorem login_indistinguishable (compare : String → String → Bool) (db : DB)
    (email pw : String) :
    (db.users.find? (fun u => u.email == email) = none →
      login compare db email pw = (.err 400 "Invalid credentials", db)) ∧
    (∀ u, db.users.find? (fun u2 => u2.email == email) = some u →
      compare pw u.password = false →
      login compare db email pw = (.err 400 "Invalid credentials", db)) ∧
    (∀ (db2 : DB) (e2 p2 : String) (u : User),
      db.users.find? (fun v => v.email == email) = none →
      db2.users.find? (fun v => v.email == e2) = some u →
      compare p2 u.password = false →
      (login compare db email pw).1 = (login compare db2 e2 p2).1) ∧
    (∀ u, db.users.find? (fun u2 => u2.email == email) = some u →
      compare pw u.password = true →
      login compare db email pw =
        (.ok 200 { token := { id := u.id, username := u.username, role := u.role },
                   user := publicOf u }, db)) := by
  refine ⟨?_, ?_, ?_, ?_⟩
  · intro hfind; simp [login, hfind]
  · intro u hfind hcmp; simp [login, hfind, hcmp]
  · intro db2 e2 p2 u h1 h2 h3
    simp [login, h1, h2, h3]
  · intro u hfind hcmp
    simp [login, hfind, hcmp, signToken]

/-- C6 witness: a login with an unknown email yields the generic 400
response. -/
theorem login_indistinguishable_witness :
    login (fun p h => h == hashW p) dbW "ghost@x.com" "pw"
      = (.err 400 "Invalid credentials", dbW) :=
  (login_indistinguishable (fun p h => h == hashW p) dbW "ghost@x.com" "pw").1
    (by decide)

/-- C7: every row created through `POST /api/publisher/contents` starts in
status draft with `publisherId` the caller's token id, its content fields
come from the destructured body keys only, and a `status` or `publisherId`
carried by the body is ignored. -/
theorem create_starts_draft_owned (c : Claims) (db : DB) (b : CreateBody) (now : Nat)
    (hrole : c.role = Role.publisher) :
    ∃ nc : Content,
      createContentRoute (.valid c) b now db =
        (.ok 201 nc,
         { db with contents := db.contents ++ [nc],
                   nextContentId := db.nextContentId + 1 }) ∧
      nc.status = CStatus.draft ∧ nc.publisherId = c.id ∧
      nc.id = db.nextContentId ∧ nc.createdAt = now ∧
      nc.title = b.title ∧ nc.content = b.content ∧ nc.ctype = b.ctype ∧
      nc.category = b.category ∧ nc.tags = b.tags.getD [] ∧
      nc.featuredImage = b.featuredImage ∧ nc.videoUrl = b.videoUrl ∧
      nc.readTime = b.readTime ∧ nc.views = 0 ∧
      (∀ (s : Option CStatus) (q : Option Nat),
        createContentRoute (.valid c) { b with status := s, publisherId := q } now db
          = createContentRoute (.valid c) b now db) := by
  have hroute : ∀ b2 : CreateBody,
      createContentRoute (.valid c) b2 now db = createContent c db b2 now := by
    intro b2
    simp [createContentRoute, publisherRoute, authenticateToken, requirePublisher, hrole]
  refine ⟨{ id := db.nextContentId, title := b.title, content := b.content,
            ctype := b.ctype, category := b.category, tags := b.tags.getD [],
            status := CStatus.draft, featuredImage := b.featuredImage,
            videoUrl := b.videoUrl, readTime := b.readTime, views := 0,
            publisherId := c.id, createdAt := now },
          ?_, rfl, rfl, rfl, rfl, rfl, rfl, rfl, rfl, rfl, rfl, rfl, rfl, rfl, ?_⟩
  · rw [hroute]; rfl
  · intro s q
    rw [hroute, hroute]
    rfl

/-- C7 witness: a body smuggling `status: published` and a foreign
`publisherId` creates exactly the same row as the body without them. -/
theorem create_starts_draft_owned_witness :
    createContentRoute (.valid pubClaims)
        { sampleCreate with status := some CStatus.draft, publisherId := some 7 } 5 dbW
      = createContentRoute (.valid pubClaims) sampleCreate 5 dbW := by
  obtain ⟨nc, -, -, -, -, -, -, -, -, -, -, -, -, -, -, hinv⟩ :=
    create_starts_draft_owned pubClaims dbW sampleCreate 5 (by decide)
  exact hinv (some CStatus.draft) (some 7)

/-- C8: a user created by registration or by the bootstrap seeding stores
exactly the bcrypt hash of the submitted plaintext in `password`; the
public projections used by register, login and profile do not depend on
the stored password, and `GET /api/profile` serialises only the
password-free projection. -/
theorem password_never_leaves (hash : String → String) (db : DB) (b : RegisterBody)
    (u : User) (p : String) (a : AuthHeader) :
    ((∀ v ∈ db.users, v.email ≠ b.email) →
      ∃ nu : User, nu.password = hash b.password ∧
        (register hash db b).2.users = db.users ++ [nu]) ∧
    ((∀ v ∈ db.users, v.role ≠ Role.publisher) →
      ∃ nu : User, nu.password = hash "publisher123" ∧
        seedDefaultPublisher hash db
          = { db with users := db.users ++ [nu], nextUserId := db.nextUserId + 1 }) ∧
    publicOf { u with password := p } = publicOf u ∧
    profileOf { u with password := p } = profileOf u ∧
    (∀ cl : Claims, getProfile (AuthHeader.valid cl) db
      = (.ok 200 ((db.users.find? (fun v => v.id == cl.id)).map profileOf), db)) ∧
    (getProfile a db).2 = db := by
  refine ⟨?_, ?_, rfl, rfl, fun cl => rfl, ?_⟩
  · intro h
    have hfind : db.users.find? (fun v => v.email == b.email) = none := by
      rw [List.find?_eq_none]
      intro v hv
      simp [h v hv]
    refine ⟨{ id := db.nextUserId, username := b.username, email := b.email,
              password := hash b.password, role := b.role.getD Role.user,
              profile := "" }, rfl, ?_⟩
    simp [register, hfind]
  · intro h
    have hfind : db.users.find? (fun v => v.role == Role.publisher) = none := by
      rw [List.find?_eq_none]
      intro v hv
      simp [h v hv]
    refine ⟨{ id := db.nextUserId, username := "admin", email := "admin@news.com",
              password := hash "publisher123", role := Role.publisher,
              profile := "" }, rfl, ?_⟩
    simp [seedDefaultPublisher, hfind]
  · cases a <;> rfl

/-- C8 witness: the register/profile projections of a concrete user are
unchanged when its stored password changes. -/
theorem password_never_leaves_witness :
    publicOf { uAdmin with password := "x" } = publicOf uAdmin ∧
    profileOf { uAdmin with password := "x" } = profileOf uAdmin := by
  have h := password_never_leaves hashW dbW regBody2 uAdmin "x" AuthHeader.missing
  exact ⟨h.2.2.1, h.2.2.2.1⟩

/-- C9: `GET /api/contents` returns only published rows of the store that
match the optional type and category filters, sorted newest-first by
creation time, in a window of at most `limit` rows starting at offset
`(page - 1) * limit`, with page defaulting to 1 and limit to 10. -/
theorem list_contents_published_window (db : DB) (qt : Option CType)
    (qc : Option String) (page lim : Option Nat) :
    ∃ rows : List Content,
      listContents db qt qc page lim = (.ok 200 rows, db) ∧
      rows = ((List.insertionSort newerFirst
          (db.contents.filter (publicFilter qt qc))).drop
            ((page.getD 1 - 1) * lim.getD 10)).take (lim.getD 10) ∧
      rows.length ≤ lim.getD 10 ∧
      List.Sorted newerFirst rows ∧
      (∀ x ∈ rows, x ∈ db.contents ∧ x.status = CStatus.published ∧
        (∀ t, qt = some t → x.ctype = t) ∧
        (∀ k, qc = some k → x.category = some k)) ∧
      listContents db qt qc none none = listContents db qt qc (some 1) (some 10) := by
  refine ⟨((List.insertionSort newerFirst
      (db.contents.filter (publicFilter qt qc))).drop
        ((page.getD 1 - 1) * lim.getD 10)).take (lim.getD 10),
    rfl, rfl, ?_, ?_, ?_, rfl⟩
  · rw [List.length_take]
    exact Nat.min_le_left _ _
  · exact List.Pairwise.sublist ((List.take_sublist _ _).trans (List.drop_sublist _ _))
      (List.sorted_insertionSort newerFirst _)
  · intro x hx
    have hsub : (((List.insertionSort newerFirst
        (db.contents.filter (publicFilter qt qc))).drop
          ((page.getD 1 - 1) * lim.getD 10)).take (lim.getD 10)).Sublist
        (List.insertionSort newerFirst (db.contents.filter (publicFilter qt qc))) :=
      (List.take_sublist _ _).trans (List.drop_sublist _ _)
    have hx2 : x ∈ List.insertionSort newerFirst
        (db.contents.filter (publicFilter qt qc)) := hsub.subset hx
    rw [List.mem_insertionSort] at hx2
    obtain ⟨hmem, hfilt⟩ := List.mem_filter.mp hx2
    simp only [publicFilter, Bool.and_eq_true, beq_iff_eq] at hfilt
    refine ⟨hmem, hfilt.1.1, ?_, ?_⟩
    · intro t ht
      have := hfilt.1.2
      rw [ht] at this
      simpa using this
    · intro k hk
      have := hfilt.2
      rw [hk] at this
      simpa using this

/-- C9 witness: on a concrete store the default query returns exactly the
single published row. -/
theorem list_contents_published_window_witness :
    listContents dbW none none none none = (.ok 200 [cPub], dbW) := by
  obtain ⟨rows, h1, h2, -, -, -, -⟩ :=
    list_contents_published_window dbW none none none none
  rw [h1, h2]
  rfl

/-- C10: publishing an owned row succeeds with 200 whatever its current
status, leaves the stored status published, and is idempotent: a second
publish returns the same response and the same stored state. -/
theorem publish_idempotent (c : Claims) (db : DB) (i : Nat) (x : Content)
    (hrole : c.role = Role.publisher)
    (hnodup : (db.contents.map Content.id).Nodup)
    (hx : x ∈ db.contents) (hid : x.id = i) (hown : x.publisherId = c.id) :
    ∃ db2 : DB,
      publishRoute (.valid c) i db
        = (.ok 200 { x with status := CStatus.published }, db2) ∧
      publishRoute (.valid c) i db2
        = (.ok 200 { x with status := CStatus.published }, db2) ∧
      (db2.contents.find? (fun y => y.id == i)).map Content.status
        = some CStatus.published := by
  obtain ⟨l1, l2, hdecomp, h1⟩ := exists_decomp_of_nodup hnodup hx
  have hroute : ∀ d : DB, publishRoute (.valid c) i d = publishContent c d i := by
    intro d
    simp [publishRoute, publisherRoute, authenticateToken, requirePublisher, hrole]
  have h1f : ∀ y ∈ l1, (y.id == i) = false := by
    intro y hy
    have hne : y.id ≠ i := fun h => h1 y hy (h.trans hid.symm)
    simp [hne]
  refine ⟨{ db with contents := l1 ++ { x with status := CStatus.published } :: l2 },
    ?_, ?_, ?_⟩
  · rw [hroute]
    exact publishContent_eq c db i l1 l2 x hdecomp hid hown h1
  · rw [hroute]
    exact publishContent_eq c _ i l1 l2 { x with status := CStatus.published }
      rfl hid hown h1
  · have hfind : (l1 ++ { x with status := CStatus.published } :: l2).find?
        (fun y => y.id == i) = some { x with status := CStatus.published } :=
      find?_append_cons _ l2 _ (by simp [hid]) l1 h1f
    simp [hfind]

/-- C10 witness: publishing an owned draft row answers 200 with the row in
published status. -/
theorem publish_idempotent_witness :
    (publishRoute (.valid pubClaims) 1 dbW).1
      = RouteResult.ok 200 { cDraft with status := CStatus.published } := by
  obtain ⟨db2, h1, -, -⟩ :=
    publish_idempotent pubClaims dbW 1 cDraft (by decide) (by decide) (by decide)
      (by decide) (by decide)
  rw [h1]

end NewsBackend
